import Mathlib

/-!
Shallow embedding of the pycozmo remote-control examples:
`src/examples/rc_cli.py`, `src/examples/rc_web.py` (Flask variant) and
`src/rc_web.py` (FastAPI variant).

Numbers: Python floats that the scripts combine by `+`, `-`, `min`, `max`
are modelled as rationals (all constants involved are decimal literals, so
no rounding behaviour is exercised by the claims).  Python ints are `Int`.
Byte strings are `List Nat`.  `None` is `Option.none`.
-/

namespace PycozmoRC

/-- Python truthiness of an optional number, as used in
`(self._head_angle or 0)`: `None` and `0` are falsy, every other number is
truthy, so `x or d` yields `d` exactly when `x` is `None` or `0`. -/
def pyOrNum (x : Option ℚ) (d : ℚ) : ℚ :=
  match x with
  | Option.none => d
  | Option.some v => if v = 0 then d else v

/-- Python truthiness of an optional int, as used in
`(data.get("speed") or controller.speed_mmps)`. -/
def pyOrInt (x : Option ℤ) (d : ℤ) : ℤ :=
  match x with
  | Option.none => d
  | Option.some v => if v = 0 then d else v

/-- Python truthiness of an optional string, as used in
`(data.get("action") or "")`: `None` and `""` are falsy. -/
def pyOrStr (x : Option String) (d : String) : String :=
  match x with
  | Option.none => d
  | Option.some s => if s = "" then d else s

/-- `str.lower()` for the ASCII strings the handlers compare against
(`String.toLower` itself does not reduce in the kernel, so the map over
the character list is spelled out). -/
def pyLower (s : String) : String := String.mk (s.data.map Char.toLower)

/-- Python truthiness of an optional byte string, as used in
`if frame and ...`: `None` and `b""` are falsy. -/
def pyTruthyBytes (x : Option (List Nat)) : Bool :=
  match x with
  | Option.none => false
  | Option.some b => !b.isEmpty

/-- Bounds reported by the external pycozmo library
(`pycozmo.robot.MIN_HEAD_ANGLE.radians`, `MAX_HEAD_ANGLE.radians`,
`MIN_LIFT_HEIGHT.mm`, `MAX_LIFT_HEIGHT.mm`).  The library is outside this
repository, so the bounds are kept symbolic. -/
structure Bounds where
  minHead : ℚ
  maxHead : ℚ
  minLift : ℚ
  maxLift : ℚ
  deriving Repr, DecidableEq

/-- A call made on the underlying `pycozmo.Client` connection by the
control helpers. -/
inductive DeviceCall where
  | drive_wheels (left_mmps right_mmps : ℤ)
  | stop_all_motors
  | set_head_angle (angle : ℚ)
  | set_lift_height (height : ℚ)
  deriving Repr, DecidableEq

/-- The mutable state of a `RobotController` (identical field set in both
web variants; the camera fields are omitted because no claim reads them
together with the command state).  `cli` is `true` when `self.cli` holds a
client object and `false` when it is `None`. -/
structure RCState where
  cli : Bool
  connected : Bool
  head_angle : Option ℚ
  lift_height : Option ℚ
  speed_mmps : ℤ
  head_step_rad : ℚ
  lift_step_mm : ℚ
  deriving Repr, DecidableEq

/-- State produced by `RobotController.__init__` (before `connect`). -/
def RCState.init : RCState :=
  { cli := false
    connected := false
    head_angle := Option.none
    lift_height := Option.none
    speed_mmps := 100
    head_step_rad := 1/10
    lift_step_mm := 5 }

namespace RobotController

/-- `RobotController.drive`: under the lock, return early if `self.cli`
is `None`, otherwise issue `drive_wheels`.  Returns the new state and the
device calls issued. -/
def drive (s : RCState) (left_mmps right_mmps : ℤ) : RCState × List DeviceCall :=
  if !s.cli then (s, [])
  else (s, [DeviceCall.drive_wheels left_mmps right_mmps])

/-- `RobotController.stop`. -/
def stop (s : RCState) : RCState × List DeviceCall :=
  if !s.cli then (s, [])
  else (s, [DeviceCall.stop_all_motors])

/-- `RobotController.head_up`:
`new_angle = min((self._head_angle or 0) + self.head_step_rad, MAX_HEAD_ANGLE.radians)`,
then `set_head_angle(new_angle)` and store it. -/
def head_up (B : Bounds) (s : RCState) : RCState × List DeviceCall :=
  if !s.cli then (s, [])
  else
    let new_angle := min (pyOrNum s.head_angle 0 + s.head_step_rad) B.maxHead
    ({ s with head_angle := Option.some new_angle },
     [DeviceCall.set_head_angle new_angle])

/-- `RobotController.head_down`:
`new_angle = max((self._head_angle or 0) - self.head_step_rad, MIN_HEAD_ANGLE.radians)`. -/
def head_down (B : Bounds) (s : RCState) : RCState × List DeviceCall :=
  if !s.cli then (s, [])
  else
    let new_angle := max (pyOrNum s.head_angle 0 - s.head_step_rad) B.minHead
    ({ s with head_angle := Option.some new_angle },
     [DeviceCall.set_head_angle new_angle])

/-- `RobotController.lift_up`:
`current = self._lift_height or 0.0`;
`new_height = min(current + self.lift_step_mm, MAX_LIFT_HEIGHT.mm)`. -/
def lift_up (B : Bounds) (s : RCState) : RCState × List DeviceCall :=
  if !s.cli then (s, [])
  else
    let current := pyOrNum s.lift_height 0
    let new_height := min (current + s.lift_step_mm) B.maxLift
    ({ s with lift_height := Option.some new_height },
     [DeviceCall.set_lift_height new_height])

/-- `RobotController.lift_down`:
`new_height = max(current - self.lift_step_mm, MIN_LIFT_HEIGHT.mm)`. -/
def lift_down (B : Bounds) (s : RCState) : RCState × List DeviceCall :=
  if !s.cli then (s, [])
  else
    let current := pyOrNum s.lift_height 0
    let new_height := max (current - s.lift_step_mm) B.minLift
    ({ s with lift_height := Option.some new_height },
     [DeviceCall.set_lift_height new_height])

end RobotController

/-- Which of the three client calls made inside `RobotController.disconnect`
raise an exception (the underlying transport is external, so failure is a
free parameter). -/
structure Faults where
  stop_all_motors_raises : Bool
  disconnect_raises : Bool
  stop_raises : Bool
  deriving Repr, DecidableEq

/-- A call on the external client that either returns or raises. -/
def clientCall (raises : Bool) : Except Unit Unit :=
  if raises then Except.error () else Except.ok ()

/-- `try: ... except Exception: pass` around a client call: whatever the
call does, execution continues. -/
def pyTryPass (e : Except Unit Unit) : Unit :=
  match e with
  | Except.ok _ => ()
  | Except.error _ => ()

/-- `RobotController.disconnect` (identical in both web variants): return
early unless `self._connected` and `self.cli`; then best-effort
`stop_all_motors`, `disconnect`, `stop`, each under `try/except: pass`;
finally clear `_connected` and `cli`.  The `Except` codomain records
whether the method itself raises. -/
def RobotController.disconnect (f : Faults) (s : RCState) : Except Unit RCState :=
  if !s.connected || !s.cli then Except.ok s
  else
    let _ := pyTryPass (clientCall f.stop_all_motors_raises)
    let _ := pyTryPass (clientCall f.disconnect_raises)
    let _ := pyTryPass (clientCall f.stop_raises)
    Except.ok { s with connected := false, cli := false }

/-! ### HTTP handlers -/

/-- JSON body of a `/api/drive` request, restricted to the shapes the
claims quantify over: `action` absent or a string, `speed` absent or a
JSON integer. -/
structure DriveBody where
  action : Option String
  speed : Option ℤ
  deriving Repr, DecidableEq

/-- Result of a handler: HTTP status class, the controller state after
the request, and the device calls issued while serving it. -/
structure ApiResult where
  status : Nat
  state : RCState
  calls : List DeviceCall
  deriving Repr, DecidableEq

/-- `api_drive` of the Flask variant (`src/examples/rc_web.py`):
`action = (data.get("action") or "").lower()`;
`speed = int(data.get("speed") or controller.speed_mmps)`;
`controller.speed_mmps = max(0, min(250, speed))`; then dispatch on
`action`, returning 400 for anything else. -/
def api_drive_flask (body : DriveBody) (s : RCState) : ApiResult :=
  let action := pyLower (pyOrStr body.action "")
  let speed := pyOrInt body.speed s.speed_mmps
  let s1 := { s with speed_mmps := max 0 (min 250 speed) }
  if action = "forward" then
    let r := RobotController.drive s1 s1.speed_mmps s1.speed_mmps
    ⟨200, r.1, r.2⟩
  else if action = "backward" then
    let r := RobotController.drive s1 (-s1.speed_mmps) (-s1.speed_mmps)
    ⟨200, r.1, r.2⟩
  else if action = "left" then
    let r := RobotController.drive s1 (-s1.speed_mmps) s1.speed_mmps
    ⟨200, r.1, r.2⟩
  else if action = "right" then
    let r := RobotController.drive s1 s1.speed_mmps (-s1.speed_mmps)
    ⟨200, r.1, r.2⟩
  else ⟨400, s1, []⟩

/-- `api_drive` of the FastAPI variant (`src/rc_web.py`): identical
except that the speed defaulting is
`int(data.get("speed") if data.get("speed") is not None else controller.speed_mmps)`
(no truthiness test, so a present `0` is kept), and the 400 is raised as
an `HTTPException` after `controller.speed_mmps` has been assigned. -/
def api_drive_fastapi (body : DriveBody) (s : RCState) : ApiResult :=
  let action := pyLower (pyOrStr body.action "")
  let speed := body.speed.getD s.speed_mmps
  let s1 := { s with speed_mmps := max 0 (min 250 speed) }
  if action = "forward" then
    let r := RobotController.drive s1 s1.speed_mmps s1.speed_mmps
    ⟨200, r.1, r.2⟩
  else if action = "backward" then
    let r := RobotController.drive s1 (-s1.speed_mmps) (-s1.speed_mmps)
    ⟨200, r.1, r.2⟩
  else if action = "left" then
    let r := RobotController.drive s1 (-s1.speed_mmps) s1.speed_mmps
    ⟨200, r.1, r.2⟩
  else if action = "right" then
    let r := RobotController.drive s1 s1.speed_mmps (-s1.speed_mmps)
    ⟨200, r.1, r.2⟩
  else ⟨400, s1, []⟩

/-- `api_head` (same control flow in both variants):
`direction = (data.get("dir") or "").lower()`; `up`/`down` dispatch to the
controller, anything else is a 400 with no controller call. -/
def api_head (B : Bounds) (dir : Option String) (s : RCState) : ApiResult :=
  let direction := pyLower (pyOrStr dir "")
  if direction = "up" then
    let r := RobotController.head_up B s
    ⟨200, r.1, r.2⟩
  else if direction = "down" then
    let r := RobotController.head_down B s
    ⟨200, r.1, r.2⟩
  else ⟨400, s, []⟩

/-- `api_lift` (same control flow in both variants). -/
def api_lift (B : Bounds) (dir : Option String) (s : RCState) : ApiResult :=
  let direction := pyLower (pyOrStr dir "")
  if direction = "up" then
    let r := RobotController.lift_up B s
    ⟨200, r.1, r.2⟩
  else if direction = "down" then
    let r := RobotController.lift_down B s
    ⟨200, r.1, r.2⟩
  else ⟨400, s, []⟩

/-! ### CLI key loop (`src/examples/rc_cli.py`) -/

/-- Effect of one iteration of the rc_cli key dispatch. -/
inductive CliEffect where
  | exitLoop
  | drive_wheels (left right : ℤ)
  | stop_all_motors
  deriving Repr, DecidableEq

/-- Key dispatch of `main` in `src/examples/rc_cli.py`.  `key` is
`cv2.waitKey(1) & 0xFF`; `speed` is the local `speed` variable (100).
Key codes: 27 = ESC, 119 = `w`, 115 = `s`, 97 = `a`, 100 = `d`,
32 = space.  Any other key falls through the `elif` chain with no
effect. -/
def rc_cli_key (speed : ℤ) (key : Nat) : Option CliEffect :=
  if key = 27 then Option.some CliEffect.exitLoop
  else if key = 119 then Option.some (CliEffect.drive_wheels speed speed)
  else if key = 115 then Option.some (CliEffect.drive_wheels (-speed) (-speed))
  else if key = 97 then Option.some (CliEffect.drive_wheels (-speed) speed)
  else if key = 100 then Option.some (CliEffect.drive_wheels speed (-speed))
  else if key = 32 then Option.some CliEffect.stop_all_motors
  else Option.none

/-! ### `/stream` MJPEG generator -/

/-- One iteration of the `gen()` loop inside `stream()` (same dedup logic
in both web variants): poll `controller.get_last_jpeg()`; if the buffer is
truthy (not `None`, not empty) and its length differs from `last_sent`,
update `last_sent` and yield the multipart chunk carrying the frame;
otherwise sleep 30 ms and yield nothing. -/
structure GenIter where
  emitted : Option (List Nat)
  slept : Bool
  last_sent : Nat
  deriving Repr, DecidableEq

/-- `if frame and (len(frame) != last_sent): last_sent = len(frame); yield ...`
`else: time.sleep(0.03)`. -/
def genStep (frame : Option (List Nat)) (last_sent : Nat) : GenIter :=
  match frame with
  | Option.none => ⟨Option.none, true, last_sent⟩
  | Option.some f =>
    if f.isEmpty then ⟨Option.none, true, last_sent⟩
    else if f.length = last_sent then ⟨Option.none, true, last_sent⟩
    else ⟨Option.some f, false, f.length⟩

/-- The generator loop run against a finite prefix of polled buffer
contents, starting from `last_sent` (`0` at connection start): returns the
frames emitted on the connection, in order, and the final `last_sent`. -/
def genRun (frames : List (Option (List Nat))) (last_sent : Nat) :
    List (List Nat) × Nat :=
  match frames with
  | [] => ([], last_sent)
  | frame :: rest =>
    let it := genStep frame last_sent
    let r := genRun rest it.last_sent
    (it.emitted.toList ++ r.1, r.2)

/-! ### Sequences of head/lift commands (for the setpoint invariant) -/

/-- One of the four incremental pose commands. -/
inductive PoseOp where
  | headUp
  | headDown
  | liftUp
  | liftDown
  deriving Repr, DecidableEq

/-- Dispatch a pose command to the controller method it names. -/
def applyPoseOp (B : Bounds) (s : RCState) : PoseOp → RCState × List DeviceCall
  | PoseOp.headUp => RobotController.head_up B s
  | PoseOp.headDown => RobotController.head_down B s
  | PoseOp.liftUp => RobotController.lift_up B s
  | PoseOp.liftDown => RobotController.lift_down B s

/-- Run a sequence of pose commands, collecting every device call issued. -/
def runPoseOps (B : Bounds) (s : RCState) : List PoseOp → RCState × List DeviceCall
  | [] => (s, [])
  | op :: rest =>
    let r := applyPoseOp B s op
    let r2 := runPoseOps B r.1 rest
    (r2.1, r.2 ++ r2.2)

/-- The stored head setpoint exists and lies within the device bounds. -/
def headInv (B : Bounds) (s : RCState) : Prop :=
  ∃ a, s.head_angle = Option.some a ∧ B.minHead ≤ a ∧ a ≤ B.maxHead

/-- The stored lift setpoint exists and lies within the device bounds. -/
def liftInv (B : Bounds) (s : RCState) : Prop :=
  ∃ h, s.lift_height = Option.some h ∧ B.minLift ≤ h ∧ h ≤ B.maxLift

/-- Every argument passed to `set_head_angle` / `set_lift_height` lies
within the corresponding device bounds. -/
def callInBounds (B : Bounds) : DeviceCall → Prop
  | DeviceCall.set_head_angle a => B.minHead ≤ a ∧ a ≤ B.maxHead
  | DeviceCall.set_lift_height h => B.minLift ≤ h ∧ h ≤ B.maxLift
  | _ => True

/-! ### Lock discipline of the control methods

Each of `drive`, `stop`, `head_up`, `head_down`, `lift_up`, `lift_down`
has the shape `with self._lock: if not self.cli: return; <one client
call>; ...`.  `self._lock` is a single shared `threading.RLock`.  We model
two HTTP worker threads (`false` and `true`) each executing one such
method on the same controller, a client call being bracketed by
`beginWrite`/`endWrite` events so that "in flight at the device" is
visible in the state. -/

inductive LAct where
  | acquire
  | beginWrite
  | endWrite
  | release
  deriving Repr, DecidableEq

/-- Remaining action list of one control-method body that reaches its
client call: take the lock, perform the call, leave the `with` block. -/
def methodProg : List LAct :=
  [LAct.acquire, LAct.beginWrite, LAct.endWrite, LAct.release]

/-- Two threads, the shared reentrant lock (owner plus recursion count),
and whether each thread currently has a client call in flight. -/
structure LockSys where
  owner : Option Bool
  count : Nat
  progA : List LAct
  progB : List LAct
  inFlightA : Bool
  inFlightB : Bool
  deriving Repr, DecidableEq

/-- Both threads about to run a control method; lock free; nothing in
flight. -/
def LockSys.start : LockSys :=
  { owner := Option.none
    count := 0
    progA := methodProg
    progB := methodProg
    inFlightA := false
    inFlightB := false }

/-- Lock owner after a `release`: freed when the recursion count returns
to zero, otherwise unchanged. -/
def relOwner (s : LockSys) : Option Bool :=
  if s.count - 1 = 0 then Option.none else s.owner

/-- Interleaving semantics.  `RLock.acquire` succeeds only when the lock
is free or already owned by the calling thread; `release` requires
ownership and frees the lock when the recursion count returns to zero.
The client call itself (`beginWrite`/`endWrite`) is not guarded: whether
it can race is exactly what is to be proved. -/
inductive LockStep : LockSys → LockSys → Prop where
  | acqA (s : LockSys) (p : List LAct) :
      s.progA = LAct.acquire :: p →
      s.owner = Option.none ∨ s.owner = Option.some false →
      LockStep s { s with progA := p, owner := Option.some false, count := s.count + 1 }
  | acqB (s : LockSys) (p : List LAct) :
      s.progB = LAct.acquire :: p →
      s.owner = Option.none ∨ s.owner = Option.some true →
      LockStep s { s with progB := p, owner := Option.some true, count := s.count + 1 }
  | bwA (s : LockSys) (p : List LAct) :
      s.progA = LAct.beginWrite :: p →
      LockStep s { s with progA := p, inFlightA := true }
  | bwB (s : LockSys) (p : List LAct) :
      s.progB = LAct.beginWrite :: p →
      LockStep s { s with progB := p, inFlightB := true }
  | ewA (s : LockSys) (p : List LAct) :
      s.progA = LAct.endWrite :: p →
      LockStep s { s with progA := p, inFlightA := false }
  | ewB (s : LockSys) (p : List LAct) :
      s.progB = LAct.endWrite :: p →
      LockStep s { s with progB := p, inFlightB := false }
  | relA (s : LockSys) (p : List LAct) :
      s.progA = LAct.release :: p →
      s.owner = Option.some false →
      LockStep s { s with progA := p, count := s.count - 1, owner := relOwner s }
  | relB (s : LockSys) (p : List LAct) :
      s.progB = LAct.release :: p →
      s.owner = Option.some true →
      LockStep s { s with progB := p, count := s.count - 1, owner := relOwner s }

/-- States reachable from `LockSys.start` by any interleaving. -/
inductive LockReach : LockSys → Prop where
  | start : LockReach LockSys.start
  | step {s s' : LockSys} : LockReach s → LockStep s s' → LockReach s'

/-- The program suffixes a thread can be at. -/
def progOK (p : List LAct) : Prop :=
  p = methodProg ∨
  p = [LAct.beginWrite, LAct.endWrite, LAct.release] ∨
  p = [LAct.endWrite, LAct.release] ∨
  p = [LAct.release] ∨
  p = []

/-- A thread is inside the `with self._lock` block. -/
def midProg (p : List LAct) : Prop :=
  p = [LAct.beginWrite, LAct.endWrite, LAct.release] ∨
  p = [LAct.endWrite, LAct.release] ∨
  p = [LAct.release]

/-- Inductive invariant: program counters are suffixes of the method
body, a thread with a call in flight is just before its `endWrite`, and a
thread inside the `with` block owns the lock. -/
def LockInv (s : LockSys) : Prop :=
  progOK s.progA ∧ progOK s.progB ∧
  (s.inFlightA = true → s.progA = [LAct.endWrite, LAct.release]) ∧
  (s.inFlightB = true → s.progB = [LAct.endWrite, LAct.release]) ∧
  (midProg s.progA → s.owner = Option.some false) ∧
  (midProg s.progB → s.owner = Option.some true)

/-! ## Theorems -/

/-- C4, counterexample.  The claim says the CLI maps `r`/`f` to head
up/down and `t`/`g` to lift up/down, but the key loop of
`src/examples/rc_cli.py` has no branch for key codes 114 (`r`), 102 (`f`),
116 (`t`) or 103 (`g`): pressing them falls through the `elif` chain and
issues no command at all (with the local `speed = 100`). -/
theorem C4_counterexample :
    rc_cli_key 100 114 = Option.none ∧ rc_cli_key 100 102 = Option.none ∧
    rc_cli_key 100 116 = Option.none ∧ rc_cli_key 100 103 = Option.none := by
  decide

/-- C4, amended.  The CLI variant maps `w`/`s`/`a`/`d` to driving
(forward, backward, left turn, right turn), space to stopping the motors
and ESC to exiting the loop; it has no head or lift key bindings, so
`r`/`f`/`t`/`g` produce no command. -/
theorem C4_cli_key_map (speed : ℤ) :
    rc_cli_key speed 119 = Option.some (CliEffect.drive_wheels speed speed) ∧
    rc_cli_key speed 115 = Option.some (CliEffect.drive_wheels (-speed) (-speed)) ∧
    rc_cli_key speed 97 = Option.some (CliEffect.drive_wheels (-speed) speed) ∧
    rc_cli_key speed 100 = Option.some (CliEffect.drive_wheels speed (-speed)) ∧
    rc_cli_key speed 32 = Option.some CliEffect.stop_all_motors ∧
    rc_cli_key speed 27 = Option.some CliEffect.exitLoop ∧
    rc_cli_key speed 114 = Option.none ∧
    rc_cli_key speed 102 = Option.none ∧
    rc_cli_key speed 116 = Option.none ∧
    rc_cli_key speed 103 = Option.none := by
  refine ⟨rfl, rfl, rfl, rfl, rfl, rfl, rfl, rfl, rfl, rfl⟩

/-- C10.  Every control operation invoked while `self.cli` is `None`
returns through the early `if not self.cli: return` guard: the state is
unchanged (in particular `_head_angle` and `_lift_height`) and no device
call is issued — hence nothing can raise, as the client is never
touched. -/
theorem C10_noop_when_disconnected (B : Bounds) (s : RCState)
    (left right : ℤ) (h : s.cli = false) :
    RobotController.drive s left right = (s, []) ∧
    RobotController.stop s = (s, []) ∧
    RobotController.head_up B s = (s, []) ∧
    RobotController.head_down B s = (s, []) ∧
    RobotController.lift_up B s = (s, []) ∧
    RobotController.lift_down B s = (s, []) := by
  unfold RobotController.drive RobotController.stop RobotController.head_up
    RobotController.head_down RobotController.lift_up RobotController.lift_down
  simp [h]

/-- C10, witness at a concrete disconnected state. -/
theorem C10_witness :
    RobotController.stop RCState.init = (RCState.init, []) :=
  (C10_noop_when_disconnected ⟨-1, 1, 32, 92⟩ RCState.init 5 7 rfl).2.1

/-- C6.  On a connected controller (`_connected` true, `cli` set),
`disconnect` returns normally whatever the three underlying client calls
do — each is wrapped in `try/except: pass` — and afterwards `_connected`
is `False` and `cli` is `None`. -/
theorem C6_disconnect_swallows (f : Faults) (s : RCState)
    (hc : s.connected = true) (hcli : s.cli = true) :
    RobotController.disconnect f s =
      Except.ok { s with connected := false, cli := false } := by
  unfold RobotController.disconnect
  simp [hc, hcli]

/-- C6, witness: all three client calls raising, on a concrete connected
state. -/
theorem C6_witness :
    RobotController.disconnect ⟨true, true, true⟩
        { RCState.init with connected := true, cli := true } =
      Except.ok { RCState.init with connected := false, cli := false } :=
  C6_disconnect_swallows ⟨true, true, true⟩
    { RCState.init with connected := true, cli := true } rfl rfl

/-! ### Helper lemmas about the drive handlers -/

/-- Whatever the action, the Flask handler stores the clamped value of
`int(data.get("speed") or controller.speed_mmps)`. -/
lemma api_drive_flask_speed (body : DriveBody) (s : RCState) :
    (api_drive_flask body s).state.speed_mmps
      = max 0 (min 250 (pyOrInt body.speed s.speed_mmps)) := by
  unfold api_drive_flask RobotController.drive
  dsimp only
  split_ifs <;> rfl

/-- Whatever the action, the FastAPI handler stores the clamped value of
the body speed, defaulting to the previous speed only when absent. -/
lemma api_drive_fastapi_speed (body : DriveBody) (s : RCState) :
    (api_drive_fastapi body s).state.speed_mmps
      = max 0 (min 250 (body.speed.getD s.speed_mmps)) := by
  unfold api_drive_fastapi RobotController.drive
  dsimp only
  split_ifs <;> rfl

/-- The four recognised action strings. -/
def driveActions : List String := ["forward", "backward", "left", "right"]

/-- Flask `api_drive` on an unrecognised action: 400, no device call,
state mutated only at `speed_mmps`. -/
lemma api_drive_flask_invalid (body : DriveBody) (s : RCState)
    (ha : pyLower (pyOrStr body.action "") ∉ driveActions) :
    api_drive_flask body s =
      ⟨400, { s with speed_mmps := max 0 (min 250 (pyOrInt body.speed s.speed_mmps)) }, []⟩ := by
  unfold api_drive_flask
  dsimp only
  split_ifs with h1 h2 h3 h4
  · exact absurd (by rw [h1]; simp [driveActions]) ha
  · exact absurd (by rw [h2]; simp [driveActions]) ha
  · exact absurd (by rw [h3]; simp [driveActions]) ha
  · exact absurd (by rw [h4]; simp [driveActions]) ha
  · rfl

/-- FastAPI `api_drive` on an unrecognised action. -/
lemma api_drive_fastapi_invalid (body : DriveBody) (s : RCState)
    (ha : pyLower (pyOrStr body.action "") ∉ driveActions) :
    api_drive_fastapi body s =
      ⟨400, { s with speed_mmps := max 0 (min 250 (body.speed.getD s.speed_mmps)) }, []⟩ := by
  unfold api_drive_fastapi
  dsimp only
  split_ifs with h1 h2 h3 h4
  · exact absurd (by rw [h1]; simp [driveActions]) ha
  · exact absurd (by rw [h2]; simp [driveActions]) ha
  · exact absurd (by rw [h3]; simp [driveActions]) ha
  · exact absurd (by rw [h4]; simp [driveActions]) ha
  · rfl

/-- `api_head` on an unrecognised direction: 400, no controller call,
state untouched. -/
lemma api_head_invalid (B : Bounds) (dir : Option String) (s : RCState)
    (hd : pyLower (pyOrStr dir "") ∉ (["up", "down"] : List String)) :
    api_head B dir s = ⟨400, s, []⟩ := by
  unfold api_head
  dsimp only
  split_ifs with h1 h2
  · exact absurd (by rw [h1]; simp) hd
  · exact absurd (by rw [h2]; simp) hd
  · rfl

/-- `api_lift` on an unrecognised direction. -/
lemma api_lift_invalid (B : Bounds) (dir : Option String) (s : RCState)
    (hd : pyLower (pyOrStr dir "") ∉ (["up", "down"] : List String)) :
    api_lift B dir s = ⟨400, s, []⟩ := by
  unfold api_lift
  dsimp only
  split_ifs with h1 h2
  · exact absurd (by rw [h1]; simp) hd
  · exact absurd (by rw [h2]; simp) hd
  · rfl

/-- C2, counterexample.  In the Flask variant a body carrying the integer
speed `0` does not store `max(0, min(250, 0)) = 0`: `data.get("speed") or
controller.speed_mmps` treats `0` as absent, so with the default previous
speed 100 the stored value is 100. -/
theorem C2_counterexample :
    (api_drive_flask ⟨Option.some "forward", Option.some 0⟩ RCState.init).state.speed_mmps = 100 ∧
    max 0 (min 250 (0 : ℤ)) = 0 ∧ (100 : ℤ) ≠ 0 := by
  decide

/-- C2, amended.  For a body carrying an integer speed, the FastAPI
variant always stores `max(0, min(250, speed))`; the Flask variant does so
for every nonzero speed (a zero speed is treated as absent and the
previous stored speed is re-clamped instead).  In particular, in both
variants speeds above 250 become 250 and negative speeds become 0. -/
theorem C2_speed_clamped (body : DriveBody) (s : RCState) (v : ℤ)
    (hv : body.speed = Option.some v) :
    (api_drive_fastapi body s).state.speed_mmps = max 0 (min 250 v) ∧
    (v ≠ 0 → (api_drive_flask body s).state.speed_mmps = max 0 (min 250 v)) ∧
    (250 < v → (api_drive_fastapi body s).state.speed_mmps = 250 ∧
               (api_drive_flask body s).state.speed_mmps = 250) ∧
    (v < 0 → (api_drive_fastapi body s).state.speed_mmps = 0 ∧
             (api_drive_flask body s).state.speed_mmps = 0) := by
  rw [api_drive_fastapi_speed, api_drive_flask_speed, hv]
  refine ⟨by simp, fun h0 => by simp [pyOrInt, h0], fun hgt => ?_, fun hlt => ?_⟩
  · have h0 : v ≠ 0 := by omega
    constructor
    · simp only [Option.getD]
      omega
    · simp only [pyOrInt, if_neg h0]
      omega
  · have h0 : v ≠ 0 := by omega
    constructor
    · simp only [Option.getD]
      omega
    · simp only [pyOrInt, if_neg h0]
      omega

/-- C2, witness: a speed of 300 is clamped to 250 in both variants. -/
theorem C2_witness :
    (api_drive_fastapi ⟨Option.some "forward", Option.some 300⟩ RCState.init).state.speed_mmps = 250 ∧
    (api_drive_flask ⟨Option.some "forward", Option.some 300⟩ RCState.init).state.speed_mmps = 250 :=
  (C2_speed_clamped ⟨Option.some "forward", Option.some 300⟩ RCState.init 300 rfl).2.2.1
    (by norm_num)

/-- C9.  The two `/api/drive` handlers disagree on a body carrying
`"speed": 0`: the Flask variant re-stores the (already clamped) previous
speed, while the FastAPI variant stores 0. -/
theorem C9_speed_zero_divergence (body : DriveBody) (s : RCState)
    (hv : body.speed = Option.some 0)
    (h0 : 0 ≤ s.speed_mmps) (h250 : s.speed_mmps ≤ 250) :
    (api_drive_flask body s).state.speed_mmps = s.speed_mmps ∧
    (api_drive_fastapi body s).state.speed_mmps = 0 := by
  rw [api_drive_flask_speed, api_drive_fastapi_speed, hv]
  constructor
  · simp [pyOrInt]
    omega
  · simp

/-- C9, witness: on the default controller state (previous speed 100) a
`"speed": 0` body leaves 100 stored in the Flask variant and 0 in the
FastAPI variant. -/
theorem C9_witness :
    (api_drive_flask ⟨Option.some "forward", Option.some 0⟩ RCState.init).state.speed_mmps = 100 ∧
    (api_drive_fastapi ⟨Option.some "forward", Option.some 0⟩ RCState.init).state.speed_mmps = 0 := by
  have h := C9_speed_zero_divergence ⟨Option.some "forward", Option.some 0⟩
    RCState.init rfl (by decide) (by decide)
  exact ⟨h.1.trans rfl, h.2⟩

/-- C8, counterexample.  In the Flask variant a body with a parseable
integer speed `0` and an unknown action returns 400 with
`controller.speed_mmps` still 100 (the previous value), not the clamped
body speed `max(0, min(250, 0)) = 0`. -/
theorem C8_counterexample :
    (api_drive_flask ⟨Option.some "spin", Option.some 0⟩ RCState.init).status = 400 ∧
    (api_drive_flask ⟨Option.some "spin", Option.some 0⟩ RCState.init).state.speed_mmps = 100 ∧
    max 0 (min 250 (0 : ℤ)) ≠ 100 := by
  decide

/-- C8, amended.  On a body with integer speed and unknown action, the
FastAPI variant stores `max(0, min(250, speed))` and then returns 400
with no device command; the Flask variant does the same whenever the
speed is nonzero (a zero speed re-stores the previous speed instead), so
the error response does not leave the assignment unexecuted. -/
theorem C8_error_updates_speed (body : DriveBody) (s : RCState) (v : ℤ)
    (hv : body.speed = Option.some v)
    (ha : pyLower (pyOrStr body.action "") ∉ driveActions) :
    (api_drive_fastapi body s).status = 400 ∧
    (api_drive_fastapi body s).state.speed_mmps = max 0 (min 250 v) ∧
    (api_drive_fastapi body s).calls = [] ∧
    (v ≠ 0 →
      (api_drive_flask body s).status = 400 ∧
      (api_drive_flask body s).state.speed_mmps = max 0 (min 250 v) ∧
      (api_drive_flask body s).calls = []) := by
  rw [api_drive_fastapi_invalid body s ha, api_drive_flask_invalid body s ha]
  refine ⟨rfl, by simp [hv], rfl, fun h0 => ⟨rfl, by simp [pyOrInt, hv, h0], rfl⟩⟩

/-- C8, witness: unknown action `"spin"` with speed 300 yields 400 in
both variants with 250 stored. -/
theorem C8_witness :
    (api_drive_fastapi ⟨Option.some "spin", Option.some 300⟩ RCState.init).status = 400 ∧
    (api_drive_fastapi ⟨Option.some "spin", Option.some 300⟩ RCState.init).state.speed_mmps = max 0 (min 250 300) := by
  have h := C8_error_updates_speed ⟨Option.some "spin", Option.some 300⟩
    RCState.init 300 rfl (by decide)
  exact ⟨h.1, h.2.1⟩

/-- C3.  A `/api/drive` body whose (lower-cased) action is not one of
`forward`/`backward`/`left`/`right` yields a 400 in both variants with no
device command issued, and a `/api/head` or `/api/lift` body whose
(lower-cased) `dir` is not `up`/`down` yields a 400 with no device
command and the controller state untouched. -/
theorem C3_invalid_input_rejected (B : Bounds) (body : DriveBody)
    (dir : Option String) (s : RCState)
    (ha : pyLower (pyOrStr body.action "") ∉ driveActions)
    (hd : pyLower (pyOrStr dir "") ∉ (["up", "down"] : List String)) :
    ((api_drive_flask body s).status = 400 ∧ (api_drive_flask body s).calls = []) ∧
    ((api_drive_fastapi body s).status = 400 ∧ (api_drive_fastapi body s).calls = []) ∧
    ((api_head B dir s).status = 400 ∧ (api_head B dir s).calls = [] ∧
      (api_head B dir s).state = s) ∧
    ((api_lift B dir s).status = 400 ∧ (api_lift B dir s).calls = [] ∧
      (api_lift B dir s).state = s) := by
  rw [api_drive_flask_invalid body s ha, api_drive_fastapi_invalid body s ha,
    api_head_invalid B dir s hd, api_lift_invalid B dir s hd]
  exact ⟨⟨rfl, rfl⟩, ⟨rfl, rfl⟩, ⟨rfl, rfl, rfl⟩, ⟨rfl, rfl, rfl⟩⟩

/-- C3, witness: action `"spin"` and direction `"sideways"` are both
rejected with no device call. -/
theorem C3_witness :
    (api_head ⟨-1, 1, 32, 92⟩ (Option.some "sideways") RCState.init).status = 400 ∧
    (api_drive_flask ⟨Option.some "spin", Option.none⟩ RCState.init).calls = [] :=
  have h := C3_invalid_input_rejected ⟨-1, 1, 32, 92⟩ ⟨Option.some "spin", Option.none⟩
    (Option.some "sideways") RCState.init (by decide) (by decide)
  ⟨h.2.2.1.1, h.1.2⟩

/-! ### Helper lemmas about the stream generator -/

/-- An iteration that emits nothing sleeps and leaves `last_sent`
unchanged. -/
lemma genStep_emitted_none (frame : Option (List Nat)) (ls : Nat)
    (h : (genStep frame ls).emitted = Option.none) :
    (genStep frame ls).slept = true ∧ (genStep frame ls).last_sent = ls := by
  cases frame with
  | none => exact ⟨rfl, rfl⟩
  | some f =>
    unfold genStep at h ⊢
    dsimp only at h ⊢
    split_ifs at h ⊢ <;> simp_all

/-- An iteration that emits a frame does not sleep, emits exactly the
polled buffer, and records its length in `last_sent`. -/
lemma genStep_emitted_some (frame : Option (List Nat)) (ls : Nat) (f : List Nat)
    (h : (genStep frame ls).emitted = Option.some f) :
    frame = Option.some f ∧ (genStep frame ls).slept = false ∧
    (genStep frame ls).last_sent = f.length := by
  cases frame with
  | none => exact absurd h (by simp [genStep])
  | some g =>
    unfold genStep at h ⊢
    dsimp only at h ⊢
    split_ifs at h ⊢
    simp_all

/-- Across any run of the generator loop, `last_sent` equals the length
of the most recently emitted frame (or the initial value when nothing has
been emitted yet). -/
lemma genRun_last_sent (frames : List (Option (List Nat))) : ∀ ls : Nat,
    (genRun frames ls).2 = ((genRun frames ls).1.getLast?.map List.length).getD ls := by
  induction frames with
  | nil => intro ls; rfl
  | cons frame rest ih =>
    intro ls
    unfold genRun
    dsimp only
    cases hE : (genStep frame ls).emitted with
    | none =>
      have hN := genStep_emitted_none frame ls hE
      simp only [Option.toList_none, List.nil_append]
      rw [ih (genStep frame ls).last_sent, hN.2]
    | some f =>
      have hS := genStep_emitted_some frame ls f hE
      simp only [Option.toList_some]
      cases hL : (genRun rest (genStep frame ls).last_sent).1.getLast? with
      | none =>
        have hnil : (genRun rest (genStep frame ls).last_sent).1 = [] := by
          simpa using hL
        rw [ih (genStep frame ls).last_sent, hL, hnil]
        simp [hS.2.2]
      | some g =>
        have hne : (genRun rest (genStep frame ls).last_sent).1 ≠ [] := by
          intro hc
          rw [hc] at hL
          exact absurd hL (by simp)
        rw [ih (genStep frame ls).last_sent, hL,
          List.getLast?_append_of_ne_nil [f] hne, hL]
        simp

/-- C5.  One iteration of the `/stream` generator emits a multipart frame
chunk exactly when the buffered JPEG is truthy (present and non-empty)
and its byte length differs from `last_sent`; an emitting iteration
yields the buffered frame, skips the sleep and records the frame's
length, while a non-emitting iteration sleeps and leaves `last_sent`
unchanged — and over a whole connection `last_sent` is always the length
of the last frame emitted (0 before the first one). -/
theorem C5_stream_dedup (frame : Option (List Nat)) (ls : Nat)
    (frames : List (Option (List Nat))) :
    ((genStep frame ls).emitted.isSome = true ↔
      pyTruthyBytes frame = true ∧ ∀ f, frame = Option.some f → f.length ≠ ls) ∧
    ((genStep frame ls).emitted = Option.none →
      (genStep frame ls).slept = true ∧ (genStep frame ls).last_sent = ls) ∧
    (∀ f, (genStep frame ls).emitted = Option.some f →
      frame = Option.some f ∧ (genStep frame ls).slept = false ∧
      (genStep frame ls).last_sent = f.length) ∧
    (genRun frames 0).2 = ((genRun frames 0).1.getLast?.map List.length).getD 0 := by
  refine ⟨?_, genStep_emitted_none frame ls, fun f => genStep_emitted_some frame ls f,
    genRun_last_sent frames 0⟩
  cases frame with
  | none => simp [genStep, pyTruthyBytes]
  | some f =>
    unfold genStep pyTruthyBytes
    dsimp only
    split_ifs with h1 h2 <;> simp_all

/-- C5, witness: a non-empty two-byte frame is emitted against
`last_sent = 0`, and a run that polls the same buffer twice then an empty
buffer emits once and ends with `last_sent = 2`. -/
theorem C5_witness :
    (genStep (Option.some [7, 7]) 0).emitted.isSome = true ∧
    (genRun [Option.some [7, 7], Option.some [7, 7], Option.none] 0).2
      = ((genRun [Option.some [7, 7], Option.some [7, 7], Option.none] 0).1.getLast?.map
          List.length).getD 0 := by
  have h := C5_stream_dedup (Option.some [7, 7]) 0
    [Option.some [7, 7], Option.some [7, 7], Option.none]
  exact ⟨h.1.mpr ⟨by decide, fun f hf => by cases hf; decide⟩, h.2.2.2⟩

/-! ### Helper lemmas for the setpoint invariant -/

/-- `(x or 0)` is the identity on a present number: the `or` only matters
when the value is `None` (and `0 or 0` is still `0`). -/
lemma pyOrNum_some (a : ℚ) : pyOrNum (Option.some a) 0 = a := by
  by_cases h : a = 0 <;> simp [pyOrNum, h]

/-- One pose command preserves both stored-setpoint invariants, never
changes the step configuration, and only passes in-bounds values to the
client. -/
lemma applyPoseOp_preserves (B : Bounds) (s : RCState) (op : PoseOp)
    (hB1 : B.minHead ≤ B.maxHead) (hB2 : B.minLift ≤ B.maxLift)
    (hs1 : 0 ≤ s.head_step_rad) (hs2 : 0 ≤ s.lift_step_mm)
    (hh : headInv B s) (hl : liftInv B s) :
    headInv B (applyPoseOp B s op).1 ∧ liftInv B (applyPoseOp B s op).1 ∧
    (applyPoseOp B s op).1.head_step_rad = s.head_step_rad ∧
    (applyPoseOp B s op).1.lift_step_mm = s.lift_step_mm ∧
    ∀ c ∈ (applyPoseOp B s op).2, callInBounds B c := by
  obtain ⟨a, ha, ha1, ha2⟩ := hh
  obtain ⟨u, hu, hu1, hu2⟩ := hl
  cases op with
  | headUp =>
    unfold applyPoseOp RobotController.head_up
    dsimp only
    split_ifs with hc
    · exact ⟨⟨a, ha, ha1, ha2⟩, ⟨u, hu, hu1, hu2⟩, rfl, rfl, by simp⟩
    · rw [ha, pyOrNum_some]
      have hlo : B.minHead ≤ min (a + s.head_step_rad) B.maxHead :=
        le_min (ha1.trans (by linarith)) hB1
      refine ⟨⟨_, rfl, hlo, min_le_right _ _⟩, ⟨u, hu, hu1, hu2⟩, rfl, rfl, ?_⟩
      intro c hmem
      rw [List.mem_singleton] at hmem
      rw [hmem]
      exact ⟨hlo, min_le_right _ _⟩
  | headDown =>
    unfold applyPoseOp RobotController.head_down
    dsimp only
    split_ifs with hc
    · exact ⟨⟨a, ha, ha1, ha2⟩, ⟨u, hu, hu1, hu2⟩, rfl, rfl, by simp⟩
    · rw [ha, pyOrNum_some]
      have hhi : max (a - s.head_step_rad) B.minHead ≤ B.maxHead :=
        max_le (by linarith) hB1
      refine ⟨⟨_, rfl, le_max_right _ _, hhi⟩, ⟨u, hu, hu1, hu2⟩, rfl, rfl, ?_⟩
      intro c hmem
      rw [List.mem_singleton] at hmem
      rw [hmem]
      exact ⟨le_max_right _ _, hhi⟩
  | liftUp =>
    unfold applyPoseOp RobotController.lift_up
    dsimp only
    split_ifs with hc
    · exact ⟨⟨a, ha, ha1, ha2⟩, ⟨u, hu, hu1, hu2⟩, rfl, rfl, by simp⟩
    · rw [hu, pyOrNum_some]
      have hlo : B.minLift ≤ min (u + s.lift_step_mm) B.maxLift :=
        le_min (hu1.trans (by linarith)) hB2
      refine ⟨⟨a, ha, ha1, ha2⟩, ⟨_, rfl, hlo, min_le_right _ _⟩, rfl, rfl, ?_⟩
      intro c hmem
      rw [List.mem_singleton] at hmem
      rw [hmem]
      exact ⟨hlo, min_le_right _ _⟩
  | liftDown =>
    unfold applyPoseOp RobotController.lift_down
    dsimp only
    split_ifs with hc
    · exact ⟨⟨a, ha, ha1, ha2⟩, ⟨u, hu, hu1, hu2⟩, rfl, rfl, by simp⟩
    · rw [hu, pyOrNum_some]
      have hhi : max (u - s.lift_step_mm) B.minLift ≤ B.maxLift :=
        max_le (by linarith) hB2
      refine ⟨⟨a, ha, ha1, ha2⟩, ⟨_, rfl, le_max_right _ _, hhi⟩, rfl, rfl, ?_⟩
      intro c hmem
      rw [List.mem_singleton] at hmem
      rw [hmem]
      exact ⟨le_max_right _ _, hhi⟩

/-- C1.  Starting from a controller state whose stored head angle and
lift height lie within the device bounds (and whose step sizes are
non-negative, as the configured `0.1` rad and `5.0` mm are), any sequence
of `head_up`/`head_down`/`lift_up`/`lift_down` calls keeps both stored
setpoints within their bounds, and every value passed to
`set_head_angle`/`set_lift_height` along the way is within those bounds
as well. -/
theorem C1_setpoints_stay_bounded (B : Bounds) (ops : List PoseOp) :
    ∀ s : RCState, B.minHead ≤ B.maxHead → B.minLift ≤ B.maxLift →
    0 ≤ s.head_step_rad → 0 ≤ s.lift_step_mm →
    headInv B s → liftInv B s →
    headInv B (runPoseOps B s ops).1 ∧ liftInv B (runPoseOps B s ops).1 ∧
    ∀ c ∈ (runPoseOps B s ops).2, callInBounds B c := by
  induction ops with
  | nil =>
    intro s _ _ _ _ hh hl
    exact ⟨hh, hl, by simp [runPoseOps]⟩
  | cons op rest ih =>
    intro s hB1 hB2 hs1 hs2 hh hl
    obtain ⟨hh', hl', e1, e2, hcalls⟩ :=
      applyPoseOp_preserves B s op hB1 hB2 hs1 hs2 hh hl
    have hrest := ih (applyPoseOp B s op).1 hB1 hB2 (e1 ▸ hs1) (e2 ▸ hs2) hh' hl'
    unfold runPoseOps
    dsimp only
    refine ⟨hrest.1, hrest.2.1, ?_⟩
    intro c hc
    rw [List.mem_append] at hc
    rcases hc with hc | hc
    · exact hcalls c hc
    · exact hrest.2.2 c hc

/-- C1, witness: from head angle 0 in `[-1, 1]` and lift height 32 in
`[32, 92]` with the default steps, a concrete command sequence keeps both
setpoints in bounds. -/
theorem C1_witness :
    headInv ⟨-1, 1, 32, 92⟩
      (runPoseOps ⟨-1, 1, 32, 92⟩
        { RCState.init with cli := true, head_angle := Option.some 0, lift_height := Option.some 32 }
        [PoseOp.headUp, PoseOp.headUp, PoseOp.headDown, PoseOp.liftUp,
          PoseOp.liftDown, PoseOp.liftDown]).1 :=
  (C1_setpoints_stay_bounded ⟨-1, 1, 32, 92⟩
    [PoseOp.headUp, PoseOp.headUp, PoseOp.headDown, PoseOp.liftUp,
      PoseOp.liftDown, PoseOp.liftDown]
    { RCState.init with cli := true, head_angle := Option.some 0, lift_height := Option.some 32 }
    (by norm_num) (by norm_num) (by norm_num [RCState.init]) (by norm_num [RCState.init])
    ⟨0, rfl, by norm_num, by norm_num⟩ ⟨32, rfl, by norm_num, by norm_num⟩).1

/-! ### Helper lemmas for the lock discipline -/

/-- The only program suffix starting with `acquire` is the whole body. -/
lemma progOK_acquire {q p : List LAct} (hq : progOK q)
    (h : q = LAct.acquire :: p) :
    p = [LAct.beginWrite, LAct.endWrite, LAct.release] := by
  rcases hq with h' | h' | h' | h' | h' <;> rw [h'] at h <;> simp_all [methodProg]

/-- The only program suffix starting with `beginWrite`. -/
lemma progOK_beginWrite {q p : List LAct} (hq : progOK q)
    (h : q = LAct.beginWrite :: p) :
    p = [LAct.endWrite, LAct.release] := by
  rcases hq with h' | h' | h' | h' | h' <;> rw [h'] at h <;> simp_all [methodProg]

/-- The only program suffix starting with `endWrite`. -/
lemma progOK_endWrite {q p : List LAct} (hq : progOK q)
    (h : q = LAct.endWrite :: p) :
    p = [LAct.release] := by
  rcases hq with h' | h' | h' | h' | h' <;> rw [h'] at h <;> simp_all [methodProg]

/-- The only program suffix starting with `release`. -/
lemma progOK_release {q p : List LAct} (hq : progOK q)
    (h : q = LAct.release :: p) :
    p = [] := by
  rcases hq with h' | h' | h' | h' | h' <;> rw [h'] at h <;> simp_all [methodProg]

/-- The invariant is preserved by every interleaving step. -/
lemma lockInv_step {s s' : LockSys} (h : LockInv s) (hs : LockStep s s') :
    LockInv s' := by
  obtain ⟨pA, pB, fA, fB, mA, mB⟩ := h
  cases hs with
  | acqA p hp hown =>
    have hp' := progOK_acquire pA hp
    subst hp'
    refine ⟨Or.inr (Or.inl rfl), pB, ?_, fB, fun _ => rfl, ?_⟩
    · intro hIF
      have h2 := fA hIF
      rw [h2] at hp
      simp at hp
    · intro hm
      have h2 := mB hm
      rcases hown with h3 | h3 <;> rw [h3] at h2 <;> exact absurd h2 (by simp)
  | acqB p hp hown =>
    have hp' := progOK_acquire pB hp
    subst hp'
    refine ⟨pA, Or.inr (Or.inl rfl), fA, ?_, ?_, fun _ => rfl⟩
    · intro hIF
      have h2 := fB hIF
      rw [h2] at hp
      simp at hp
    · intro hm
      have h2 := mA hm
      rcases hown with h3 | h3 <;> rw [h3] at h2 <;> exact absurd h2 (by simp)
  | bwA p hp =>
    have hp' := progOK_beginWrite pA hp
    subst hp'
    refine ⟨Or.inr (Or.inr (Or.inl rfl)), pB, fun _ => rfl, fB, ?_, mB⟩
    intro _
    exact mA (by rw [hp]; exact Or.inl rfl)
  | bwB p hp =>
    have hp' := progOK_beginWrite pB hp
    subst hp'
    refine ⟨pA, Or.inr (Or.inr (Or.inl rfl)), fA, fun _ => rfl, mA, ?_⟩
    intro _
    exact mB (by rw [hp]; exact Or.inl rfl)
  | ewA p hp =>
    have hp' := progOK_endWrite pA hp
    subst hp'
    refine ⟨Or.inr (Or.inr (Or.inr (Or.inl rfl))), pB, ?_, fB, ?_, mB⟩
    · intro hIF
      exact absurd hIF (by simp)
    · intro _
      exact mA (by rw [hp]; exact Or.inr (Or.inl rfl))
  | ewB p hp =>
    have hp' := progOK_endWrite pB hp
    subst hp'
    refine ⟨pA, Or.inr (Or.inr (Or.inr (Or.inl rfl))), fA, ?_, mA, ?_⟩
    · intro hIF
      exact absurd hIF (by simp)
    · intro _
      exact mB (by rw [hp]; exact Or.inr (Or.inl rfl))
  | relA p hp hown =>
    have hp' := progOK_release pA hp
    subst hp'
    refine ⟨Or.inr (Or.inr (Or.inr (Or.inr rfl))), pB, ?_, fB, ?_, ?_⟩
    · intro hIF
      have h2 := fA hIF
      rw [h2] at hp
      simp at hp
    · intro hm
      exact absurd hm (by simp [midProg])
    · intro hm
      have h2 := mB hm
      rw [hown] at h2
      exact absurd h2 (by simp)
  | relB p hp hown =>
    have hp' := progOK_release pB hp
    subst hp'
    refine ⟨pA, Or.inr (Or.inr (Or.inr (Or.inr rfl))), fA, ?_, ?_, ?_⟩
    · intro hIF
      have h2 := fB hIF
      rw [h2] at hp
      simp at hp
    · intro hm
      have h2 := mA hm
      rw [hown] at h2
      exact absurd h2 (by simp)
    · intro hm
      exact absurd hm (by simp [midProg])

/-- The invariant holds in every reachable state. -/
lemma lockInv_reach {s : LockSys} (h : LockReach s) : LockInv s := by
  induction h with
  | start =>
    refine ⟨Or.inl rfl, Or.inl rfl, ?_, ?_, ?_, ?_⟩
    · intro hIF
      simp [LockSys.start] at hIF
    · intro hIF
      simp [LockSys.start] at hIF
    · intro hm
      rcases hm with h2 | h2 | h2 <;> simp [LockSys.start, methodProg] at h2
    · intro hm
      rcases hm with h2 | h2 | h2 <;> simp [LockSys.start, methodProg] at h2
  | step _ hstep ih => exact lockInv_step ih hstep

/-- C7.  For any interleaving of two control-method calls on the same
controller, there is never a moment with two client calls in flight: each
method body acquires the shared `RLock` before its client call and
releases it after, so the lock owner identifies the unique thread whose
command may be at the device. -/
theorem C7_writes_serialized (s : LockSys) (h : LockReach s) :
    ¬(s.inFlightA = true ∧ s.inFlightB = true) := by
  obtain ⟨pA, pB, fA, fB, mA, mB⟩ := lockInv_reach h
  rintro ⟨h1, h2⟩
  have o1 := mA (by rw [fA h1]; exact Or.inr (Or.inl rfl))
  have o2 := mB (by rw [fB h2]; exact Or.inr (Or.inl rfl))
  rw [o1] at o2
  exact absurd o2 (by simp)

/-- C7, witness: the initial two-thread configuration is reachable and
has no interleaved writes. -/
theorem C7_witness :
    ¬(LockSys.start.inFlightA = true ∧ LockSys.start.inFlightB = true) :=
  C7_writes_serialized LockSys.start LockReach.start

end PycozmoRC
